import Mathlib

/-!
Shallow embedding of the Scaleway SDK identifier cache and fuzzy resolver
(`ScalewayCache`, `ScalewayResolverResult` and their operations), together
with theorems settling the specification claims about them.

Modelling conventions:
* Go maps `map[string][MAXFIELD]string` are embedded as association lists
  `List (String × CacheRecord)`; the positional record fields
  (REGION, ARCH, OWNER, TITLE = 0..3) become the named fields
  `region, arch, owner, title`.
* The filesystem is an association list from paths to file contents; I/O
  operations are modelled on their success path (transient I/O failures are
  environmental and outside the embedding).
* The `Type` field of `ScalewayResolverResult` is renamed `type` because
  `Type` is reserved in Lean.
-/

namespace Scaleway

/-- Cache record: the fixed 4-tuple of strings stored per identifier.
In the source this is `[MAXFIELD]string` indexed by the constants
REGION = 0, ARCH = 1, OWNER = 2, TITLE = 3. -/
structure CacheRecord where
  region : String
  arch : String
  owner : String
  title : String
deriving DecidableEq

/-- A per-kind table: Go `map[string][MAXFIELD]string`, keyed by identifier. -/
abbrev Table := List (String × CacheRecord)

/-- Type key of unknown objects (Go: `IdentifierUnknown = 1 << iota`). -/
def IdentifierUnknown : Nat := 1
/-- Type key of cached server objects. -/
def IdentifierServer : Nat := 2
/-- Type key of cached image objects. -/
def IdentifierImage : Nat := 4
/-- Type key of cached snapshot objects. -/
def IdentifierSnapshot : Nat := 8
/-- Type key of cached bootscript objects. -/
def IdentifierBootscript : Nat := 16
/-- Type key of cached volume objects. -/
def IdentifierVolume : Nat := 32

/-- The in-memory cache store (Go struct `ScalewayCache`).  The mutex is
dropped: the embedding is sequential, each operation is modelled as the
atomic state transformation it performs under the lock. -/
structure ScalewayCache where
  Images : Table
  Snapshots : Table
  Volumes : Table
  Bootscripts : Table
  Servers : Table
  Path : String
  Modified : Bool
deriving DecidableEq

/-- Resolver result (Go struct `ScalewayResolverResult`); the Go field
`Type` is renamed `type`. -/
structure ScalewayResolverResult where
  Identifier : String
  type : Nat
  Name : String
  Needle : String
  RankMatch : Nat
deriving DecidableEq

/-- Ordering used by `sort.Sort` on `ScalewayResolverResults`
(Go method `Less`): ascending `RankMatch`. -/
def resultsLess (s : List ScalewayResolverResult) (i j : Fin s.length) : Prop :=
  (s.get i).RankMatch < (s.get j).RankMatch

/- ------------------------------------------------------------------ -/
/- Generic association-list operations (embedding of Go map semantics) -/
/- ------------------------------------------------------------------ -/

/-- Update (or insert) the binding of `k` in an association list. -/
def assocUpdate {α : Type} : List (String × α) → String → α → List (String × α)
  | [], k, v => [(k, v)]
  | (k', v') :: t, k, v =>
    if k' = k then (k, v) :: t else (k', v') :: assocUpdate t k v

/-- Look up the binding of `k` in an association list. -/
def assocLookup {α : Type} : List (String × α) → String → Option α
  | [], _ => none
  | (k', v') :: t, k => if k' = k then some v' else assocLookup t k

/-- Delete the binding of `k` in an association list (Go `delete`). -/
def assocErase {α : Type} : List (String × α) → String → List (String × α)
  | [], _ => []
  | (k', v') :: t, k => if k' = k then t else (k', v') :: assocErase t k

/- ------------------------------------------------------------------ -/
/- String helpers embedding the Go stdlib calls used by the resolver   -/
/- ------------------------------------------------------------------ -/

/-- Embedding of `strings.HasPrefix`: `isPrefixList p s` is true when the
character list `p` is a prefix of `s`. -/
def isPrefixList : List Char → List Char → Bool
  | [], _ => true
  | _ :: _, [] => false
  | a :: p, b :: s => a = b && isPrefixList p s

/-- Embedding of `strings.Split(s, sep)` for a one-character separator:
splits around every occurrence of `sep`. -/
def splitOnChar (sep : Char) : List Char → List (List Char)
  | [] => [[]]
  | c :: rest =>
    match splitOnChar sep rest with
    | [] => [[]]
    | h :: t => if c = sep then [] :: h :: t else (c :: h) :: t

/-- Embedding of `regexp.MustCompile("^user/").ReplaceAllString(needle, "")`
on the character list: drop one leading literal `user/`. -/
def stripUserData : List Char → List Char
  | 'u' :: 's' :: 'e' :: 'r' :: '/' :: rest => rest
  | l => l

/-- String-level wrapper of `stripUserData`. -/
def stripUser (s : String) : String := String.mk (stripUserData s.data)

/-- Modelled from the spec: the wildcard pattern of §4.3 step 3.  The source
builds the Go regular expression
`(?i)` + `regexp.MustCompile("[_-]").ReplaceAllString(needle, ".*")` and
tests titles with the (unanchored) `MatchString`; the Go `regexp` engine
itself is an external library not under `src/`.  Each `_`/`-` of the needle
becomes a wildcard segment boundary and the literal segments must occur in
order, case-insensitively, anywhere in the title (all other characters are
taken literally, as the spec's edge policy states). -/
def wildcardSegments : List Char → List (List Char)
  | [] => [[]]
  | c :: rest =>
    match wildcardSegments rest with
    | [] => [[]]
    | h :: t => if c = '-' || c = '_' then [] :: h :: t else (c :: h) :: t

/-- Find the first occurrence of `seg` as a contiguous sublist and return
the remainder after it. -/
def findSub (seg : List Char) : List Char → Option (List Char)
  | [] => if seg.isEmpty then some [] else none
  | b :: t =>
    if isPrefixList seg (b :: t) then some ((b :: t).drop seg.length)
    else findSub seg t

/-- Match a sequence of literal segments, in order, anywhere in `s`
(the semantics of the unanchored pattern `seg₁.*seg₂.* ... segₙ`). -/
def matchSegs : List (List Char) → List Char → Bool
  | [], _ => true
  | seg :: rest, s =>
    match findSub seg s with
    | none => false
    | some rem => matchSegs rest rem

/-- Case-insensitive wildcard match of the needle's pattern against a title
(the resolver's `nameRegex.MatchString(fields[TITLE])`). -/
def patternMatch (needle title : String) : Bool :=
  matchSegs (wildcardSegments (needle.data.map Char.toLower))
    (title.data.map Char.toLower)

/-- Lower-case hexadecimal digit test, used by the UUID syntax check. -/
def isHexDigit (c : Char) : Bool := c.isDigit || ('a' ≤ c && c ≤ 'f')

/-- One dash-separated group of a UUID: `n` hexadecimal characters. -/
def uuidGroup (l : List Char) (n : Nat) : Bool :=
  l.length == n && l.all isHexDigit

/-- Modelled from the spec: the syntactic identifier-format check
(`anonuuid.IsUUID`, an external library not under `src/`).  Per the spec a
"standard UUID string": five dash-separated groups of 8-4-4-4-12
hexadecimal characters. -/
def isUUID (s : String) : Bool :=
  match splitOnChar '-' s.data with
  | [a, b, c, d, e] =>
    uuidGroup a 8 && uuidGroup b 4 && uuidGroup c 4 && uuidGroup d 4 &&
      uuidGroup e 12
  | _ => false

/-- Helper for `lev`: given `f = lev s`, computes `lev (a :: s)` by
structural recursion on the second word. -/
def levAux (a : Char) (f : List Char → Nat) : List Char → Nat
  | [] => f [] + 1
  | b :: t =>
    if a = b then f t
    else 1 + min (f (b :: t)) (min (levAux a f t) (f t))

/-- Levenshtein edit distance (insertions, deletions, substitutions at unit
cost) between two character lists. -/
def lev : List Char → List Char → Nat
  | [], t => t.length
  | a :: s, t => levAux a (lev s) t

/-- Modelled from the spec: the fuzzy score `fuzzy.RankMatch(needle, name)`
(library `renstrom/fuzzysearch`, external, not under `src/`).  Per §4.4 and
§3 of the spec, an "edit-distance-style fuzzy scoring where 0 means
identical": the Levenshtein distance between needle and name. -/
def fuzzyRankMatch (needle name : String) : Nat := lev needle.data name.data

/-- Fills `Needle` and `RankMatch` with the fuzzy score of `Name` against
the needle (Go method `ComputeRankMatch`). -/
def ScalewayResolverResult.ComputeRankMatch (s : ScalewayResolverResult)
    (needle : String) : ScalewayResolverResult :=
  { s with Needle := needle, RankMatch := fuzzyRankMatch needle s.Name }

/-- The result entry built for a scanned table record inside the per-kind
lookups. -/
def mkScanEntry (kind : Nat) (identifier : String) (fields : CacheRecord)
    (needle : String) : ScalewayResolverResult :=
  ScalewayResolverResult.ComputeRankMatch
    ⟨identifier, kind, fields.title, "", 0⟩ needle

/-- The synthetic literal-identifier candidate added when `acceptUUID` holds
and the needle is UUID-shaped: `Identifier = Name = needle`. -/
def synthEntry (kind : Nat) (needle : String) : ScalewayResolverResult :=
  ScalewayResolverResult.ComputeRankMatch ⟨needle, kind, needle, "", 0⟩ needle

/-- The `exactMatches` list of a per-kind lookup: one entry per table record
whose title equals the (normalized) needle, in scan order. -/
def exactMatchesOf (kind : Nat) (tbl : Table) (needle : String) :
    List ScalewayResolverResult :=
  tbl.filterMap fun e =>
    if e.2.title = needle then some (mkScanEntry kind e.1 e.2 needle) else none

/-- The general matches of a per-kind lookup's table scan: records whose
identifier starts with the needle or whose title matches the wildcard
pattern. -/
def generalMatchesOf (kind : Nat) (tbl : Table) (needle : String) :
    List ScalewayResolverResult :=
  tbl.filterMap fun e =>
    if isPrefixList needle.data e.1.data || patternMatch needle e.2.title then
      some (mkScanEntry kind e.1 e.2 needle)
    else none

/-- One step of `removeDuplicatesResults`: Go's
`encountered[elements[v].Identifier] = elements[v]`. -/
def addResult (m : List (String × ScalewayResolverResult))
    (e : ScalewayResolverResult) : List (String × ScalewayResolverResult) :=
  assocUpdate m e.Identifier e

/-- Deduplicate a result list by `Identifier`, keeping one representative
per identifier (a later entry overwrites an earlier one with the same
identifier, as in the Go map). -/
def removeDuplicatesResults (elements : List ScalewayResolverResult) :
    List ScalewayResolverResult :=
  (elements.foldl addResult []).map Prod.snd

/-- The per-kind lookup algorithm shared verbatim by the five `LookUp*`
methods.  `strip` records whether the method strips a leading `user/` from
the needle before the scan (true in the source only for `LookUpImages` and
`LookUpSnapshots`). -/
def lookUpTable (kind : Nat) (strip : Bool) (tbl : Table) (needle : String)
    (acceptUUID : Bool) : List ScalewayResolverResult :=
  if (exactMatchesOf kind tbl (if strip then stripUser needle else needle)).length = 1 then
    exactMatchesOf kind tbl (if strip then stripUser needle else needle)
  else
    removeDuplicatesResults
      ((if acceptUUID && isUUID needle then [synthEntry kind needle] else []) ++
        generalMatchesOf kind tbl (if strip then stripUser needle else needle))

/-- Go method `LookUpServers` (no `user/` stripping in the source). -/
def ScalewayCache.LookUpServers (c : ScalewayCache) (needle : String)
    (acceptUUID : Bool) : List ScalewayResolverResult :=
  lookUpTable IdentifierServer false c.Servers needle acceptUUID

/-- Go method `LookUpImages` (strips a leading `user/`). -/
def ScalewayCache.LookUpImages (c : ScalewayCache) (needle : String)
    (acceptUUID : Bool) : List ScalewayResolverResult :=
  lookUpTable IdentifierImage true c.Images needle acceptUUID

/-- Go method `LookUpSnapshots` (strips a leading `user/`). -/
def ScalewayCache.LookUpSnapshots (c : ScalewayCache) (needle : String)
    (acceptUUID : Bool) : List ScalewayResolverResult :=
  lookUpTable IdentifierSnapshot true c.Snapshots needle acceptUUID

/-- Go method `LookUpVolumes` (no `user/` stripping in the source). -/
def ScalewayCache.LookUpVolumes (c : ScalewayCache) (needle : String)
    (acceptUUID : Bool) : List ScalewayResolverResult :=
  lookUpTable IdentifierVolume false c.Volumes needle acceptUUID

/-- Go method `LookUpBootscripts` (no `user/` stripping in the source). -/
def ScalewayCache.LookUpBootscripts (c : ScalewayCache) (needle : String)
    (acceptUUID : Bool) : List ScalewayResolverResult :=
  lookUpTable IdentifierBootscript false c.Bootscripts needle acceptUUID

/-- Go function `parseNeedle`: extract an optional forced object type. -/
def parseNeedle (input : String) : Nat × String :=
  match (splitOnChar ':' input.data).map String.mk with
  | [kind, rest] =>
    if kind = "server" then (IdentifierServer, rest)
    else if kind = "image" then (IdentifierImage, rest)
    else if kind = "snapshot" then (IdentifierSnapshot, rest)
    else if kind = "bootscript" then (IdentifierBootscript, rest)
    else if kind = "volume" then (IdentifierVolume, rest)
    else (IdentifierUnknown, input)
  | _ => (IdentifierUnknown, input)

/-- The entry rebuilt (with kind tag and recomputed rank) for each per-kind
result inside `LookUpIdentifiers`. -/
def retag (kind : Nat) (needle : String) (r : ScalewayResolverResult) :
    ScalewayResolverResult :=
  ScalewayResolverResult.ComputeRankMatch ⟨r.Identifier, kind, r.Name, "", 0⟩
    needle

/-- Go method `LookUpIdentifiers`: parse the needle, run the selected
per-kind lookups with `acceptUUID = false`, and concatenate the retagged
result sets in the fixed order Server, Image, Snapshot, Volume,
Bootscript. -/
def ScalewayCache.LookUpIdentifiers (c : ScalewayCache) (input : String) :
    List ScalewayResolverResult :=
  match parseNeedle input with
  | (identifierType, needle) =>
    (if identifierType &&& (IdentifierUnknown ||| IdentifierServer) > 0 then
      (c.LookUpServers needle false).map (retag IdentifierServer needle)
    else []) ++
    (if identifierType &&& (IdentifierUnknown ||| IdentifierImage) > 0 then
      (c.LookUpImages needle false).map (retag IdentifierImage needle)
    else []) ++
    (if identifierType &&& (IdentifierUnknown ||| IdentifierSnapshot) > 0 then
      (c.LookUpSnapshots needle false).map (retag IdentifierSnapshot needle)
    else []) ++
    (if identifierType &&& (IdentifierUnknown ||| IdentifierVolume) > 0 then
      (c.LookUpVolumes needle false).map (retag IdentifierVolume needle)
    else []) ++
    (if identifierType &&& (IdentifierUnknown ||| IdentifierBootscript) > 0 then
      (c.LookUpBootscripts needle false).map (retag IdentifierBootscript needle)
    else [])

/-- Go method `InsertServer`: overwrite the record and set the dirty flag
when no record exists for the identifier or the stored title differs. -/
def ScalewayCache.InsertServer (c : ScalewayCache)
    (identifier region arch owner name : String) : ScalewayCache :=
  match assocLookup c.Servers identifier with
  | none =>
    { c with Servers := assocUpdate c.Servers identifier ⟨region, arch, owner, name⟩,
             Modified := true }
  | some fields =>
    if fields.title ≠ name then
      { c with Servers := assocUpdate c.Servers identifier ⟨region, arch, owner, name⟩,
               Modified := true }
    else c

/-- The JSON-serializable part of a cache file: five named mappings, each
possibly absent (Go decodes a missing mapping to a nil map).  `Path` and
`Modified` carry the tag `json:"-"` in the source and are never
serialized. -/
structure CacheFile where
  images : Option Table
  snapshots : Option Table
  volumes : Option Table
  bootscripts : Option Table
  servers : Option Table
deriving DecidableEq

/-- Content of a file on disk: either a decodable cache document or
undecodable bytes (this includes the zero-length file left behind by the
corruption-recovery branch). -/
inductive FileContent where
  | valid (f : CacheFile)
  | invalid
deriving DecidableEq

/-- The filesystem, as a mapping from paths to file contents. -/
abbrev Fs := List (String × FileContent)

/-- Serialization of a store (`json.NewEncoder(file).Encode(*c)`): all five
mappings are written; `Path` and `Modified` are skipped per their
`json:"-"` tags. -/
def encodeCache (c : ScalewayCache) : CacheFile :=
  ⟨some c.Images, some c.Snapshots, some c.Volumes, some c.Bootscripts,
    some c.Servers⟩

/-- Go method `Save`, success path: when the dirty flag is set, write the
serialized store over the file at `c.Path` (temp file plus rename, atomic);
otherwise leave the filesystem untouched.  The in-memory store is returned
as the source leaves it: the method never assigns any of its fields. -/
def ScalewayCache.Save (c : ScalewayCache) (fs : Fs) : ScalewayCache × Fs :=
  if c.Modified then
    (c, assocUpdate fs c.Path (FileContent.valid (encodeCache c)))
  else (c, fs)

/-- Go method `Flush`, success path: delete the file at `c.Path`. -/
def ScalewayCache.Flush (c : ScalewayCache) (fs : Fs) : Fs :=
  assocErase fs c.Path

/-- Go function `NewScalewayCache`, success path, parameterized by the
per-user cache path computed from the environment.  A missing file yields a
fresh empty store; a decodable file is loaded with absent mappings
initialized empty; an undecodable file triggers the recovery branch, which
resets the whole struct to its zero value (losing `Path`), deletes the
corrupt file and recreates it empty (an empty file is itself not a
decodable document). -/
def NewScalewayCache (cachePath : String) (fs : Fs) :
    Except String (ScalewayCache × Fs) :=
  match assocLookup fs cachePath with
  | none =>
    .ok ({ Images := [], Snapshots := [], Volumes := [], Bootscripts := [],
           Servers := [], Path := cachePath, Modified := false }, fs)
  | some (.valid f) =>
    .ok ({ Images := f.images.getD [], Snapshots := f.snapshots.getD [],
           Volumes := f.volumes.getD [], Bootscripts := f.bootscripts.getD [],
           Servers := f.servers.getD [], Path := cachePath,
           Modified := false }, fs)
  | some .invalid =>
    .ok ({ Images := [], Snapshots := [], Volumes := [], Bootscripts := [],
           Servers := [], Path := "", Modified := false },
         assocUpdate fs cachePath FileContent.invalid)

/- ------------------------------------------------------------------ -/
/- Concrete instances used by witnesses and counterexamples            -/
/- ------------------------------------------------------------------ -/

/-- An empty store (all five mappings empty). -/
def emptyStore : ScalewayCache :=
  { Images := [], Snapshots := [], Volumes := [], Bootscripts := [],
    Servers := [], Path := "", Modified := false }

/-- A dirty store holding one server, used for the save/round-trip
instances. -/
def c1Store : ScalewayCache :=
  { emptyStore with
      Servers := [("srv-1", ⟨"par1", "arm", "me", "web"⟩)],
      Path := "/home/u/.scw-cache.db", Modified := true }

/-- A clean store with the same contents as `c1Store`. -/
def c1CleanStore : ScalewayCache := { c1Store with Modified := false }

/-- A one-record table titled `x`, used for the `user/` stripping
instances. -/
def c2Table : Table := [("a", ⟨"", "", "", "x"⟩)]

/-- A store whose Servers and Images tables are both `c2Table`. -/
def c2Store : ScalewayCache :=
  { emptyStore with Servers := c2Table, Images := c2Table }

/-- A table with one record titled exactly `web` and two fuzzy
lookalikes. -/
def c3Table : Table :=
  [("id-1", ⟨"r", "a", "o", "web"⟩), ("id-2", ⟨"r", "a", "o", "web2"⟩),
    ("id-3", ⟨"r", "a", "o", "webby"⟩)]

/-- A server store over `c3Table`. -/
def c3Store : ScalewayCache := { emptyStore with Servers := c3Table }

/-- A two-record table in which exactly one record has an empty title. -/
def c7Table : Table := [("a", ⟨"", "", "", ""⟩), ("b", ⟨"", "", "", "x"⟩)]

/-- A server store over `c7Table`. -/
def c7Store : ScalewayCache := { emptyStore with Servers := c7Table }

/-- A syntactically valid UUID needle. -/
def c8Uuid : String := "00112233-aabb-ccdd-eeff-001122334455"

/-- A server store whose only record is titled with `c8Uuid` but stored
under a different identifier. -/
def c8Store : ScalewayCache :=
  { emptyStore with
      Servers := [("id1", ⟨"", "", "", "00112233-aabb-ccdd-eeff-001122334455"⟩)] }

/-- A server store with one record titled `web`, used for the unified
lookup instances. -/
def c5Store : ScalewayCache :=
  { emptyStore with Servers := [("srv1", ⟨"", "", "", "web"⟩)] }

/-- A resolver result whose name is `web`. -/
def c6Exact : ScalewayResolverResult := ⟨"id-1", 2, "web", "", 0⟩

/-- A resolver result whose name is `webby`. -/
def c6Other : ScalewayResolverResult := ⟨"id-2", 2, "webby", "", 0⟩

/-- A server store holding an existing record, used for the idempotent
insert instances. -/
def c9Store : ScalewayCache :=
  { emptyStore with Servers := [("i", ⟨"r", "a", "o", "n"⟩)] }

/-- A filesystem whose cache file is undecodable. -/
def c10Fs : Fs := [("/home/u/.scw-cache.db", FileContent.invalid)]

/- ------------------------------------------------------------------ -/
/- Supporting lemmas                                                   -/
/- ------------------------------------------------------------------ -/

theorem assocLookup_assocUpdate_self {α : Type} (m : List (String × α))
    (k : String) (v : α) : assocLookup (assocUpdate m k v) k = some v := by
  induction m with
  | nil => simp [assocUpdate, assocLookup]
  | cons hd tl ih =>
    obtain ⟨k', v'⟩ := hd
    by_cases h : k' = k
    · simp [assocUpdate, assocLookup, h]
    · simp [assocUpdate, assocLookup, h, ih]

theorem mem_assocUpdate_of_ne {α : Type} {m : List (String × α)}
    {k : String} {v : α} (k' : String) (v' : α) (h : (k, v) ∈ m)
    (hne : k ≠ k') : (k, v) ∈ assocUpdate m k' v' := by
  induction m with
  | nil => simp at h
  | cons hd tl ih =>
    obtain ⟨k₀, v₀⟩ := hd
    rcases List.mem_cons.1 h with h₁ | h₁
    · obtain ⟨rfl, rfl⟩ := Prod.mk.injEq .. ▸ h₁
      simp only [assocUpdate, if_neg hne]
      exact List.mem_cons_self ..
    · by_cases h₂ : k₀ = k'
      · simp only [assocUpdate, if_pos h₂]
        exact List.mem_cons_of_mem _ h₁
      · simp only [assocUpdate, if_neg h₂]
        exact List.mem_cons_of_mem _ (ih h₁)

theorem mem_assocUpdate_elim {α : Type} {m : List (String × α)}
    {k : String} {v : α} {p : String × α} (h : p ∈ assocUpdate m k v) :
    p = (k, v) ∨ p ∈ m := by
  induction m with
  | nil => simpa [assocUpdate] using h
  | cons hd tl ih =>
    obtain ⟨k₀, v₀⟩ := hd
    by_cases h₂ : k₀ = k
    · simp only [assocUpdate, if_pos h₂] at h
      rcases List.mem_cons.1 h with h₁ | h₁
      · exact .inl h₁
      · exact .inr (List.mem_cons_of_mem _ h₁)
    · simp only [assocUpdate, if_neg h₂] at h
      rcases List.mem_cons.1 h with h₁ | h₁
      · exact .inr (h₁ ▸ List.mem_cons_self ..)
      · rcases ih h₁ with h₃ | h₃
        · exact .inl h₃
        · exact .inr (List.mem_cons_of_mem _ h₃)

theorem mem_keys_assocUpdate {α : Type} (m : List (String × α))
    (k : String) (v : α) (x : String) :
    x ∈ (assocUpdate m k v).map Prod.fst ↔ x = k ∨ x ∈ m.map Prod.fst := by
  induction m with
  | nil => simp [assocUpdate]
  | cons hd tl ih =>
    obtain ⟨k₀, v₀⟩ := hd
    by_cases h₂ : k₀ = k
    · subst h₂
      simp [assocUpdate]
    · simp only [assocUpdate, if_neg h₂, List.map_cons, List.mem_cons, ih]
      tauto

theorem keys_nodup_assocUpdate {α : Type} (m : List (String × α))
    (k : String) (v : α) (h : (m.map Prod.fst).Nodup) :
    ((assocUpdate m k v).map Prod.fst).Nodup := by
  induction m with
  | nil => simp [assocUpdate]
  | cons hd tl ih =>
    obtain ⟨k₀, v₀⟩ := hd
    simp only [List.map_cons, List.nodup_cons] at h
    by_cases h₂ : k₀ = k
    · subst h₂
      simpa [assocUpdate] using h
    · simp only [assocUpdate, if_neg h₂, List.map_cons, List.nodup_cons]
      refine ⟨fun hmem => h.1 ?_, ih h.2⟩
      rcases (mem_keys_assocUpdate tl k v k₀).1 hmem with h₃ | h₃
      · exact absurd h₃ h₂
      · exact h₃

theorem mem_keys_foldl_addResult (es : List ScalewayResolverResult)
    (m : List (String × ScalewayResolverResult)) (x : String) :
    x ∈ ((es.foldl addResult m).map Prod.fst) ↔
      x ∈ m.map Prod.fst ∨ x ∈ es.map ScalewayResolverResult.Identifier := by
  induction es generalizing m with
  | nil => simp
  | cons e es ih =>
    simp only [List.foldl_cons, ih, addResult, mem_keys_assocUpdate,
      List.map_cons, List.mem_cons]
    tauto

theorem keys_nodup_foldl_addResult (es : List ScalewayResolverResult)
    (m : List (String × ScalewayResolverResult))
    (h : (m.map Prod.fst).Nodup) :
    ((es.foldl addResult m).map Prod.fst).Nodup := by
  induction es generalizing m with
  | nil => simpa using h
  | cons e es ih =>
    exact ih _ (keys_nodup_assocUpdate _ _ _ h)

theorem snd_ident_foldl_addResult (es : List ScalewayResolverResult)
    (m : List (String × ScalewayResolverResult))
    (h : ∀ p ∈ m, (Prod.snd p).Identifier = p.1) :
    ∀ p ∈ es.foldl addResult m, (Prod.snd p).Identifier = p.1 := by
  induction es generalizing m with
  | nil => simpa using h
  | cons e es ih =>
    refine ih _ fun p hp => ?_
    rcases mem_assocUpdate_elim hp with h₁ | h₁
    · subst h₁; rfl
    · exact h p h₁

theorem pair_mem_foldl_addResult (es : List ScalewayResolverResult)
    {m : List (String × ScalewayResolverResult)} {k : String}
    {v : ScalewayResolverResult} (h : (k, v) ∈ m)
    (hk : ∀ e ∈ es, e.Identifier ≠ k) : (k, v) ∈ es.foldl addResult m := by
  induction es generalizing m with
  | nil => simpa using h
  | cons e es ih =>
    refine ih (mem_assocUpdate_of_ne _ _ h ?_) fun e' he' => hk e' (by simp [he'])
    exact fun hkk => hk e (by simp) hkk.symm

theorem map_ident_map_snd (m : List (String × ScalewayResolverResult))
    (h : ∀ p ∈ m, (Prod.snd p).Identifier = p.1) :
    (m.map Prod.snd).map ScalewayResolverResult.Identifier = m.map Prod.fst := by
  rw [List.map_map]
  exact List.map_congr_left h

theorem removeDuplicatesResults_ids_nodup (es : List ScalewayResolverResult) :
    ((removeDuplicatesResults es).map ScalewayResolverResult.Identifier).Nodup := by
  unfold removeDuplicatesResults
  rw [map_ident_map_snd _ (snd_ident_foldl_addResult es [] (by simp))]
  exact keys_nodup_foldl_addResult es [] (by simp)

theorem removeDuplicatesResults_ids_mem (es : List ScalewayResolverResult)
    (x : String) :
    x ∈ (removeDuplicatesResults es).map ScalewayResolverResult.Identifier ↔
      x ∈ es.map ScalewayResolverResult.Identifier := by
  unfold removeDuplicatesResults
  rw [map_ident_map_snd _ (snd_ident_foldl_addResult es [] (by simp))]
  simpa using mem_keys_foldl_addResult es [] x

theorem removeDuplicatesResults_head_mem (e : ScalewayResolverResult)
    (es : List ScalewayResolverResult)
    (h : ∀ e' ∈ es, e'.Identifier ≠ e.Identifier) :
    e ∈ removeDuplicatesResults (e :: es) := by
  unfold removeDuplicatesResults
  have hp : (e.Identifier, e) ∈ (e :: es).foldl addResult [] := by
    simpa [addResult, assocUpdate] using
      @pair_mem_foldl_addResult es [(e.Identifier, e)] e.Identifier e
        (by simp) h
  exact List.mem_map.2 ⟨(e.Identifier, e), hp, rfl⟩

theorem length_exactMatchesOf (kind : Nat) (tbl : Table) (n : String) :
    (exactMatchesOf kind tbl n).length =
      tbl.countP (fun e => e.2.title == n) := by
  induction tbl with
  | nil => simp [exactMatchesOf]
  | cons hd tl ih =>
    by_cases h : hd.2.title = n
    · simp [exactMatchesOf, List.countP_cons, h] at ih ⊢
      omega
    · simp [exactMatchesOf, List.countP_cons, h] at ih ⊢
      exact ih

theorem exactMatchesOf_singleton {kind : Nat} {tbl : Table} {n : String}
    (h : tbl.countP (fun e => e.2.title == n) = 1) :
    ∃ i f, (i, f) ∈ tbl ∧ f.title = n ∧
      exactMatchesOf kind tbl n = [mkScanEntry kind i f n] := by
  have hlen : (exactMatchesOf kind tbl n).length = 1 :=
    (length_exactMatchesOf kind tbl n).trans h
  obtain ⟨x, hx⟩ := List.length_eq_one.1 hlen
  have hmem : x ∈ exactMatchesOf kind tbl n := by simp [hx]
  obtain ⟨e, he, hsome⟩ := List.mem_filterMap.1 hmem
  by_cases ht : e.2.title = n
  · refine ⟨e.1, e.2, he, ht, ?_⟩
    rw [hx]
    simp only [if_pos ht] at hsome
    rw [Option.some.injEq] at hsome
    rw [hsome]
  · simp [ht] at hsome

theorem mem_generalMatchesOf {kind : Nat} {tbl : Table} {n : String}
    {r : ScalewayResolverResult} :
    r ∈ generalMatchesOf kind tbl n ↔
      ∃ i f, (i, f) ∈ tbl ∧
        (isPrefixList n.data i.data || patternMatch n f.title) = true ∧
        r = mkScanEntry kind i f n := by
  constructor
  · intro h
    obtain ⟨e, he, hsome⟩ := List.mem_filterMap.1 h
    by_cases hc : (isPrefixList n.data e.1.data || patternMatch n e.2.title) = true
    · exact ⟨e.1, e.2, he, hc, by simp [hc] at hsome; exact hsome.symm⟩
    · simp [hc] at hsome
  · rintro ⟨i, f, hmem, hc, rfl⟩
    exact List.mem_filterMap.2 ⟨(i, f), hmem, by simp [hc]⟩

theorem lev_self (s : List Char) : lev s s = 0 := by
  induction s with
  | nil => rfl
  | cons a s ih => simp [lev, levAux, ih]

theorem splitOnChar_ne_nil (sep : Char) (l : List Char) :
    splitOnChar sep l ≠ [] := by
  cases l with
  | nil => simp [splitOnChar]
  | cons c rest =>
    simp only [splitOnChar]
    rcases splitOnChar sep rest with _ | ⟨h, t⟩ <;> simp
    split <;> simp

theorem splitOnChar_cons_of_ne (sep c : Char) (l : List Char)
    (h : c ≠ sep) : ∃ h₀ t₀, splitOnChar sep (c :: l) = (c :: h₀) :: t₀ := by
  rcases hs : splitOnChar sep l with _ | ⟨h₀, t₀⟩
  · exact absurd hs (splitOnChar_ne_nil sep l)
  · exact ⟨h₀, t₀, by simp [splitOnChar, hs, h]⟩

theorem isUUID_false_of_head (s : String) (c : Char) (l : List Char)
    (hd : s.data = c :: l) (hc : isHexDigit c = false) :
    isUUID s = false := by
  by_cases hcs : c = '-'
  · subst hcs
    rcases hs : splitOnChar '-' l with _ | ⟨h₀, t₀⟩
    · exact absurd hs (splitOnChar_ne_nil '-' l)
    · unfold isUUID
      rw [hd]
      simp only [splitOnChar, hs, if_pos rfl]
      rcases t₀ with _ | ⟨b, _ | ⟨d, _ | ⟨e, _ | ⟨f, t⟩⟩⟩⟩ <;>
        simp [uuidGroup]
  · obtain ⟨h₀, t₀, hsplit⟩ := splitOnChar_cons_of_ne '-' c l hcs
    unfold isUUID
    rw [hd, hsplit]
    rcases t₀ with _ | ⟨b, _ | ⟨d, _ | ⟨e, _ | ⟨f, _ | ⟨g, t⟩⟩⟩⟩⟩ <;>
      simp [uuidGroup, hc]

theorem stripUser_of_isUUID (s : String) (h : isUUID s = true) :
    stripUser s = s := by
  unfold stripUser stripUserData
  split
  · rename_i rest heq
    rw [isUUID_false_of_head s 'u' _ heq (by decide)] at h
    cases h
  · rfl

theorem stripUser_user_append (rest : String) :
    stripUser ("user/" ++ rest) = rest := rfl

theorem lookUpTable_strip_eq (kind : Nat) (tbl : Table) (n₁ n₂ : String)
    (h : stripUser n₁ = stripUser n₂) :
    lookUpTable kind true tbl n₁ false = lookUpTable kind true tbl n₂ false := by
  unfold lookUpTable
  simp only [if_true, Bool.false_and, Bool.false_eq_true, if_false]
  rw [h]

theorem lookUpTable_single_exact (kind : Nat) (i : String) (f : CacheRecord)
    (n : String) (hf : f.title = n) :
    lookUpTable kind false [(i, f)] n false = [mkScanEntry kind i f n] := by
  have hex : exactMatchesOf kind [(i, f)] n = [mkScanEntry kind i f n] := by
    simp [exactMatchesOf, hf]
  unfold lookUpTable
  simp [Bool.false_eq_true, if_false, hex, List.length_singleton]

theorem lookUpTable_of_length_ne_one (kind : Nat) (strip : Bool)
    (tbl : Table) (needle : String) (acceptUUID : Bool) (n' : String)
    (hn : n' = if strip then stripUser needle else needle)
    (h : tbl.countP (fun e => e.2.title == n') ≠ 1) :
    lookUpTable kind strip tbl needle acceptUUID =
      removeDuplicatesResults
        ((if acceptUUID && isUUID needle then [synthEntry kind needle]
          else []) ++ generalMatchesOf kind tbl n') := by
  have hlen : (exactMatchesOf kind tbl n').length ≠ 1 := by
    rw [length_exactMatchesOf]
    exact h
  unfold lookUpTable
  rw [← hn]
  rw [if_neg hlen]

theorem lookUpIdentifiers_dispatch (c : ScalewayCache) (input : String)
    (t : Nat) (n : String) (hp : parseNeedle input = (t, n)) :
    c.LookUpIdentifiers input =
      (if t &&& (IdentifierUnknown ||| IdentifierServer) > 0 then
        (c.LookUpServers n false).map (retag IdentifierServer n) else []) ++
      (if t &&& (IdentifierUnknown ||| IdentifierImage) > 0 then
        (c.LookUpImages n false).map (retag IdentifierImage n) else []) ++
      (if t &&& (IdentifierUnknown ||| IdentifierSnapshot) > 0 then
        (c.LookUpSnapshots n false).map (retag IdentifierSnapshot n)
      else []) ++
      (if t &&& (IdentifierUnknown ||| IdentifierVolume) > 0 then
        (c.LookUpVolumes n false).map (retag IdentifierVolume n) else []) ++
      (if t &&& (IdentifierUnknown ||| IdentifierBootscript) > 0 then
        (c.LookUpBootscripts n false).map (retag IdentifierBootscript n)
      else []) := by
  unfold ScalewayCache.LookUpIdentifiers
  rw [hp]

/- ------------------------------------------------------------------ -/
/- Claim theorems                                                      -/
/- ------------------------------------------------------------------ -/

/-- C5: `LookUpIdentifiers` parses an optional kind prefix; with a
recognized prefix (`server:`, `image:`, `snapshot:`, `bootscript:`,
`volume:`) it runs only that kind's lookup on the remainder, and with no
prefix or an unrecognized one it runs all five lookups on the whole input;
every per-kind lookup is called with `acceptUUID = false` and the retagged
result sets are concatenated in the fixed order Server, Image, Snapshot,
Volume, Bootscript. -/
theorem c5_unified_lookup (c : ScalewayCache) (input : String) :
    (∀ rest, (splitOnChar ':' input.data).map String.mk = ["server", rest] →
      c.LookUpIdentifiers input =
        (c.LookUpServers rest false).map (retag IdentifierServer rest)) ∧
    (∀ rest, (splitOnChar ':' input.data).map String.mk = ["image", rest] →
      c.LookUpIdentifiers input =
        (c.LookUpImages rest false).map (retag IdentifierImage rest)) ∧
    (∀ rest,
      (splitOnChar ':' input.data).map String.mk = ["snapshot", rest] →
      c.LookUpIdentifiers input =
        (c.LookUpSnapshots rest false).map (retag IdentifierSnapshot rest)) ∧
    (∀ rest,
      (splitOnChar ':' input.data).map String.mk = ["bootscript", rest] →
      c.LookUpIdentifiers input =
        (c.LookUpBootscripts rest false).map
          (retag IdentifierBootscript rest)) ∧
    (∀ rest, (splitOnChar ':' input.data).map String.mk = ["volume", rest] →
      c.LookUpIdentifiers input =
        (c.LookUpVolumes rest false).map (retag IdentifierVolume rest)) ∧
    (parseNeedle input = (IdentifierUnknown, input) →
      c.LookUpIdentifiers input =
        (c.LookUpServers input false).map (retag IdentifierServer input) ++
        (c.LookUpImages input false).map (retag IdentifierImage input) ++
        (c.LookUpSnapshots input false).map
          (retag IdentifierSnapshot input) ++
        (c.LookUpVolumes input false).map (retag IdentifierVolume input) ++
        (c.LookUpBootscripts input false).map
          (retag IdentifierBootscript input)) ∧
    (((splitOnChar ':' input.data).map String.mk).length ≠ 2 →
      parseNeedle input = (IdentifierUnknown, input)) ∧
    (∀ a b, (splitOnChar ':' input.data).map String.mk = [a, b] →
      a ≠ "server" → a ≠ "image" → a ≠ "snapshot" → a ≠ "bootscript" →
      a ≠ "volume" → parseNeedle input = (IdentifierUnknown, input)) := by
  refine ⟨?_, ?_, ?_, ?_, ?_, ?_, ?_, ?_⟩
  · intro rest hsplit
    have hp : parseNeedle input = (IdentifierServer, rest) := by
      unfold parseNeedle
      rw [hsplit]
      simp
    rw [lookUpIdentifiers_dispatch c input _ _ hp, if_pos (by decide),
      if_neg (by decide), if_neg (by decide), if_neg (by decide),
      if_neg (by decide)]
    simp
  · intro rest hsplit
    have hp : parseNeedle input = (IdentifierImage, rest) := by
      unfold parseNeedle
      rw [hsplit]
      simp
    rw [lookUpIdentifiers_dispatch c input _ _ hp, if_neg (by decide),
      if_pos (by decide), if_neg (by decide), if_neg (by decide),
      if_neg (by decide)]
    simp
  · intro rest hsplit
    have hp : parseNeedle input = (IdentifierSnapshot, rest) := by
      unfold parseNeedle
      rw [hsplit]
      simp
    rw [lookUpIdentifiers_dispatch c input _ _ hp, if_neg (by decide),
      if_neg (by decide), if_pos (by decide), if_neg (by decide),
      if_neg (by decide)]
    simp
  · intro rest hsplit
    have hp : parseNeedle input = (IdentifierBootscript, rest) := by
      unfold parseNeedle
      rw [hsplit]
      simp
    rw [lookUpIdentifiers_dispatch c input _ _ hp, if_neg (by decide),
      if_neg (by decide), if_neg (by decide), if_neg (by decide),
      if_pos (by decide)]
    simp
  · intro rest hsplit
    have hp : parseNeedle input = (IdentifierVolume, rest) := by
      unfold parseNeedle
      rw [hsplit]
      simp
    rw [lookUpIdentifiers_dispatch c input _ _ hp, if_neg (by decide),
      if_neg (by decide), if_neg (by decide), if_pos (by decide),
      if_neg (by decide)]
    simp
  · intro hp
    rw [lookUpIdentifiers_dispatch c input _ _ hp, if_pos (by decide),
      if_pos (by decide), if_pos (by decide), if_pos (by decide),
      if_pos (by decide)]
  · intro h
    unfold parseNeedle
    rcases hs : (splitOnChar ':' input.data).map String.mk with
      _ | ⟨a, _ | ⟨b, _ | ⟨d, t⟩⟩⟩
    · rfl
    · rfl
    · rw [hs] at h
      simp at h
    · rfl
  · intro a b hs h1 h2 h3 h4 h5
    unfold parseNeedle
    rw [hs]
    simp [h1, h2, h3, h4, h5]

/-- C5, witness for `c5_unified_lookup`: on a concrete store, the needle
`server:web` runs only the server lookup with remainder `web`, and the
prefix-free needle `web` runs all five lookups concatenated in kind
order. -/
theorem c5_unified_lookup_witness :
    c5Store.LookUpIdentifiers "server:web" =
      (c5Store.LookUpServers "web" false).map (retag IdentifierServer "web") ∧
    c5Store.LookUpIdentifiers "web" =
      (c5Store.LookUpServers "web" false).map (retag IdentifierServer "web") ++
      (c5Store.LookUpImages "web" false).map (retag IdentifierImage "web") ++
      (c5Store.LookUpSnapshots "web" false).map
        (retag IdentifierSnapshot "web") ++
      (c5Store.LookUpVolumes "web" false).map (retag IdentifierVolume "web") ++
      (c5Store.LookUpBootscripts "web" false).map
        (retag IdentifierBootscript "web") :=
  ⟨(c5_unified_lookup c5Store "server:web").1 "web" (by decide),
    (c5_unified_lookup c5Store "web").2.2.2.2.2.1 (by decide)⟩

/-- C1, counterexample: the claim says a successful `Save` on a dirty store
leaves the dirty flag false; on the concrete dirty store `c1Store` the save
succeeds yet the flag is still true — `Save` never assigns `Modified` in
the source. -/
theorem c1_save_clears_dirty_cex :
    ¬ ((c1Store.Save []).1.Modified = false) := by decide

/-- C1, amended: a successful `Save` leaves the in-memory store — its dirty
flag included — exactly as it was (the flag only becomes false again when a
store is reconstructed by `NewScalewayCache`, since it is never
serialized); a `Save` on a clean store performs no write and returns
success; a `Save` on a dirty store writes the serialized store over
`c.Path`. -/
theorem c1_save_contract (c : ScalewayCache) (fs : Fs) :
    (c.Save fs).1 = c ∧
    (c.Modified = false → c.Save fs = (c, fs)) ∧
    (c.Modified = true →
      (c.Save fs).2 =
        assocUpdate fs c.Path (FileContent.valid (encodeCache c))) := by
  unfold ScalewayCache.Save
  rcases h : c.Modified <;> simp [h]

/-- C1, witness for `c1_save_contract` at concrete stores. -/
theorem c1_save_contract_witness :
    c1CleanStore.Save [] = (c1CleanStore, []) ∧
    (c1Store.Save []).2 =
      assocUpdate [] c1Store.Path (FileContent.valid (encodeCache c1Store)) :=
  ⟨(c1_save_contract c1CleanStore []).2.1 rfl,
    (c1_save_contract c1Store []).2.2 rfl⟩

/-- C4: saving a dirty store and loading the resulting file from the same
path yields a store with exactly the same records in each of the five
per-kind mappings. -/
theorem c4_save_load_round_trip (c : ScalewayCache) (fs : Fs)
    (h : c.Modified = true) :
    ∃ c₂ fs₂, NewScalewayCache c.Path (c.Save fs).2 = .ok (c₂, fs₂) ∧
      c₂.Images = c.Images ∧ c₂.Snapshots = c.Snapshots ∧
      c₂.Volumes = c.Volumes ∧ c₂.Bootscripts = c.Bootscripts ∧
      c₂.Servers = c.Servers := by
  have hsave : (c.Save fs).2 =
      assocUpdate fs c.Path (FileContent.valid (encodeCache c)) := by
    simp [ScalewayCache.Save, h]
  rw [hsave]
  unfold NewScalewayCache
  rw [assocLookup_assocUpdate_self]
  exact ⟨_, _, rfl, rfl, rfl, rfl, rfl, rfl⟩

/-- C4, witness for `c4_save_load_round_trip` at the concrete dirty store
`c1Store`. -/
theorem c4_save_load_round_trip_witness :
    ∃ c₂ fs₂,
      NewScalewayCache c1Store.Path (c1Store.Save []).2 = .ok (c₂, fs₂) ∧
      c₂.Images = c1Store.Images ∧ c₂.Snapshots = c1Store.Snapshots ∧
      c₂.Volumes = c1Store.Volumes ∧ c₂.Bootscripts = c1Store.Bootscripts ∧
      c₂.Servers = c1Store.Servers :=
  c4_save_load_round_trip c1Store [] rfl

/-- C6: a candidate whose name is identical to the needle gets rank 0, the
minimum possible score, and therefore never ranks strictly behind any other
candidate under the ascending `Less` ordering. -/
theorem c6_identical_name_ranks_first (needle : String)
    (r r' : ScalewayResolverResult) (h : r.Name = needle) :
    (r.ComputeRankMatch needle).RankMatch = 0 ∧
    (r.ComputeRankMatch needle).RankMatch ≤
      (r'.ComputeRankMatch needle).RankMatch ∧
    ∀ (s : List ScalewayResolverResult) (i j : Fin s.length),
      s.get i = r.ComputeRankMatch needle →
      s.get j = r'.ComputeRankMatch needle → ¬ resultsLess s j i := by
  have h0 : (r.ComputeRankMatch needle).RankMatch = 0 := by
    simp [ScalewayResolverResult.ComputeRankMatch, fuzzyRankMatch, h,
      lev_self]
  refine ⟨h0, h0 ▸ Nat.zero_le _, ?_⟩
  intro s i j hi hj hlt
  rw [resultsLess, hi, hj, h0] at hlt
  exact Nat.not_lt_zero _ hlt

/-- C6, witness for `c6_identical_name_ranks_first` at a concrete pair of
candidates. -/
theorem c6_identical_name_ranks_first_witness :
    (c6Exact.ComputeRankMatch "web").RankMatch = 0 ∧
    (c6Exact.ComputeRankMatch "web").RankMatch ≤
      (c6Other.ComputeRankMatch "web").RankMatch :=
  ⟨(c6_identical_name_ranks_first "web" c6Exact c6Other rfl).1,
    (c6_identical_name_ranks_first "web" c6Exact c6Other rfl).2.1⟩

/-- C9: `InsertServer` is idempotent — a second insert with the same
arguments is a no-op on the whole store — and it overwrites the record and
sets the dirty flag exactly when no record exists for the identifier or the
stored title differs from the new name; otherwise the store (dirty flag
included) is left untouched. -/
theorem c9_insert_server_idempotent (c : ScalewayCache)
    (identifier region arch owner name : String) :
    ((c.InsertServer identifier region arch owner name).InsertServer
        identifier region arch owner name =
      c.InsertServer identifier region arch owner name) ∧
    ((assocLookup c.Servers identifier = none ∨
      (∃ f, assocLookup c.Servers identifier = some f ∧ f.title ≠ name)) →
      c.InsertServer identifier region arch owner name =
        { c with
            Servers := assocUpdate c.Servers identifier
              ⟨region, arch, owner, name⟩,
            Modified := true }) ∧
    ((∃ f, assocLookup c.Servers identifier = some f ∧ f.title = name) →
      c.InsertServer identifier region arch owner name = c) := by
  have hwrite : ∀ c' : ScalewayCache,
      (assocLookup c'.Servers identifier = none ∨
        (∃ f, assocLookup c'.Servers identifier = some f ∧ f.title ≠ name)) →
      c'.InsertServer identifier region arch owner name =
        { c' with
            Servers := assocUpdate c'.Servers identifier
              ⟨region, arch, owner, name⟩,
            Modified := true } := by
    intro c' hcond
    unfold ScalewayCache.InsertServer
    rcases hcond with hnone | ⟨f, hf, hne⟩
    · rw [hnone]
    · rw [hf]
      simp [hne]
  have hskip : ∀ c' : ScalewayCache,
      (∃ f, assocLookup c'.Servers identifier = some f ∧ f.title = name) →
      c'.InsertServer identifier region arch owner name = c' := by
    intro c' hcond
    obtain ⟨f, hf, heq⟩ := hcond
    unfold ScalewayCache.InsertServer
    rw [hf]
    simp [heq]
  refine ⟨?_, hwrite c, hskip c⟩
  by_cases hcond : assocLookup c.Servers identifier = none ∨
      (∃ f, assocLookup c.Servers identifier = some f ∧ f.title ≠ name)
  · rw [hwrite c hcond]
    apply hskip
    refine ⟨⟨region, arch, owner, name⟩, ?_, rfl⟩
    exact assocLookup_assocUpdate_self c.Servers identifier
      ⟨region, arch, owner, name⟩
  · push_neg at hcond
    rcases hf : assocLookup c.Servers identifier with _ | f
    · exact absurd (Or.inl hf) (by tauto)
    · have heq : f.title = name := hcond.2 f hf
      rw [hskip c ⟨f, hf, heq⟩, hskip c ⟨f, hf, heq⟩]

/-- C9, witness for `c9_insert_server_idempotent` at concrete stores: a
fresh insert into the empty store writes and sets the dirty flag; an
insert matching the record already present in `c9Store` is a no-op. -/
theorem c9_insert_server_idempotent_witness :
    (emptyStore.InsertServer "i" "r" "a" "o" "n" =
      { emptyStore with
          Servers := assocUpdate emptyStore.Servers "i" ⟨"r", "a", "o", "n"⟩,
          Modified := true }) ∧
    c9Store.InsertServer "i" "r" "a" "o" "n" = c9Store :=
  ⟨(c9_insert_server_idempotent emptyStore "i" "r" "a" "o" "n").2.1
      (Or.inl rfl),
    (c9_insert_server_idempotent c9Store "i" "r" "a" "o" "n").2.2
      ⟨⟨"r", "a", "o", "n"⟩, rfl, rfl⟩⟩

/-- C2, counterexample: the claim says the literal `user/` prefix is
stripped from the needle before the comparisons uniformly in all five
kinds; on the same one-record table titled `x`, the needle `user/x`
produces the exact match in `LookUpImages` (which strips) but the empty
result in `LookUpServers` (which, in the source, does not strip). -/
theorem c2_uniform_strip_cex :
    c2Store.LookUpServers "user/x" false = [] ∧
    c2Store.LookUpImages "user/x" false =
      [mkScanEntry IdentifierImage "a" ⟨"", "", "", "x"⟩ "x"] := by
  constructor <;> decide

/-- C2, amended: the `user/` prefix is stripped from the needle before the
exact-title comparison and the wildcard matching only in `LookUpImages` and
`LookUpSnapshots`; `LookUpServers`, `LookUpVolumes` and `LookUpBootscripts`
use the needle unmodified (a record titled exactly `user/…` is an exact
match there, and the entries carry the unstripped needle). -/
theorem c2_strip_images_snapshots_only (c : ScalewayCache) (rest : String)
    (hr : stripUser rest = rest) :
    (c.LookUpImages ("user/" ++ rest) false = c.LookUpImages rest false) ∧
    (c.LookUpSnapshots ("user/" ++ rest) false =
      c.LookUpSnapshots rest false) ∧
    (∀ i f, f.title = "user/" ++ rest →
      ({ c with Servers := [(i, f)] } : ScalewayCache).LookUpServers
          ("user/" ++ rest) false =
        [mkScanEntry IdentifierServer i f ("user/" ++ rest)]) ∧
    (∀ i f, f.title = "user/" ++ rest →
      ({ c with Volumes := [(i, f)] } : ScalewayCache).LookUpVolumes
          ("user/" ++ rest) false =
        [mkScanEntry IdentifierVolume i f ("user/" ++ rest)]) ∧
    (∀ i f, f.title = "user/" ++ rest →
      ({ c with Bootscripts := [(i, f)] } : ScalewayCache).LookUpBootscripts
          ("user/" ++ rest) false =
        [mkScanEntry IdentifierBootscript i f ("user/" ++ rest)]) := by
  have hs : stripUser ("user/" ++ rest) = stripUser rest :=
    (stripUser_user_append rest).trans hr.symm
  refine ⟨lookUpTable_strip_eq _ _ _ _ hs, lookUpTable_strip_eq _ _ _ _ hs,
    fun i f hf => ?_, fun i f hf => ?_, fun i f hf => ?_⟩ <;>
    exact lookUpTable_single_exact _ i f _ hf

/-- C2, witness for `c2_strip_images_snapshots_only` at a concrete store
and needle remainder. -/
theorem c2_strip_images_snapshots_only_witness :
    c2Store.LookUpImages ("user/" ++ "x") false =
      c2Store.LookUpImages "x" false ∧
    ({ c2Store with Servers := [("a", ⟨"", "", "", "user/x"⟩)] } :
        ScalewayCache).LookUpServers ("user/" ++ "x") false =
      [mkScanEntry IdentifierServer "a" ⟨"", "", "", "user/x"⟩
        ("user/" ++ "x")] :=
  ⟨(c2_strip_images_snapshots_only c2Store "x" rfl).1,
    (c2_strip_images_snapshots_only c2Store "x" rfl).2.2.1 "a"
      ⟨"", "", "", "user/x"⟩ rfl⟩

/-- C3: in any per-kind lookup (generic over the kind tag and the
`user/`-stripping flag that distinguishes the five methods), if exactly one
stored record's title equals the normalized needle then the result is
exactly that one record's entry — all general matches, including the
synthetic `acceptUUID` candidate, are suppressed; otherwise the result is
the general-matches list deduplicated by identifier, with one
representative per distinct identifier (no duplicate identifiers, same set
of identifiers). -/
theorem c3_exact_match_short_circuit (kind : Nat) (strip : Bool)
    (tbl : Table) (needle : String) (acceptUUID : Bool) (n' : String)
    (hn : n' = if strip then stripUser needle else needle)
    (gen : List ScalewayResolverResult)
    (hg : gen =
      (if acceptUUID && isUUID needle then [synthEntry kind needle]
        else []) ++ generalMatchesOf kind tbl n') :
    (tbl.countP (fun e => e.2.title == n') = 1 →
      ∃ i f, (i, f) ∈ tbl ∧ f.title = n' ∧
        lookUpTable kind strip tbl needle acceptUUID =
          [mkScanEntry kind i f n']) ∧
    (tbl.countP (fun e => e.2.title == n') ≠ 1 →
      lookUpTable kind strip tbl needle acceptUUID =
        removeDuplicatesResults gen ∧
      ((removeDuplicatesResults gen).map
        ScalewayResolverResult.Identifier).Nodup ∧
      (∀ x, x ∈ (removeDuplicatesResults gen).map
          ScalewayResolverResult.Identifier ↔
        x ∈ gen.map ScalewayResolverResult.Identifier)) := by
  constructor
  · intro h1
    obtain ⟨i, f, hmem, ht, hex⟩ := @exactMatchesOf_singleton kind tbl n' h1
    refine ⟨i, f, hmem, ht, ?_⟩
    have hlen : (exactMatchesOf kind tbl n').length = 1 := by
      rw [length_exactMatchesOf]
      exact h1
    unfold lookUpTable
    rw [← hn, if_pos hlen, hex]
  · intro h1
    refine ⟨?_, removeDuplicatesResults_ids_nodup gen,
      fun x => removeDuplicatesResults_ids_mem gen x⟩
    rw [lookUpTable_of_length_ne_one kind strip tbl needle acceptUUID n' hn h1,
      hg]

/-- C3, witness for `c3_exact_match_short_circuit` on the concrete table
with one exact `web` title and two fuzzy lookalikes. -/
theorem c3_exact_match_short_circuit_witness :
    ∃ i f, (i, f) ∈ c3Table ∧ f.title = "web" ∧
      lookUpTable IdentifierServer false c3Table "web" false =
        [mkScanEntry IdentifierServer i f "web"] :=
  (c3_exact_match_short_circuit IdentifierServer false c3Table "web" false
    "web" rfl _ rfl).1 (by decide)

/-- C7, counterexample: the claim says an empty needle returns a result for
every stored record of the kind; on `c7Table`, whose record `a` has an
empty title, the exact-match short-circuit fires and record `b` is missing
from the result. -/
theorem c7_empty_needle_cex :
    ¬ ∃ r ∈ c7Store.LookUpServers "" false, r.Identifier = "b" := by
  decide

/-- C7, amended: with the empty needle and `acceptUUID = false`, a per-kind
lookup returns a result for every stored record of that kind — unless
exactly one record has an empty title, in which case the exact-match
short-circuit returns only that record. -/
theorem c7_empty_needle_matches_all (kind : Nat) (strip : Bool)
    (tbl : Table) (h : tbl.countP (fun e => e.2.title == "") ≠ 1)
    (i : String) (f : CacheRecord) (hmem : (i, f) ∈ tbl) :
    ∃ r ∈ lookUpTable kind strip tbl "" false, r.Identifier = i := by
  have hn : ("" : String) = if strip then stripUser "" else "" := by
    cases strip <;> rfl
  rw [lookUpTable_of_length_ne_one kind strip tbl "" false "" hn h]
  have hgen : mkScanEntry kind i f "" ∈ generalMatchesOf kind tbl "" :=
    mem_generalMatchesOf.2 ⟨i, f, hmem, by simp [isPrefixList], rfl⟩
  have hid : i ∈ ((if (false && isUUID "") = true then [synthEntry kind ""]
      else []) ++ generalMatchesOf kind tbl "").map
        ScalewayResolverResult.Identifier := by
    simp only [Bool.false_and, Bool.false_eq_true, if_false, List.nil_append]
    exact List.mem_map.2 ⟨mkScanEntry kind i f "", hgen, rfl⟩
  have := (removeDuplicatesResults_ids_mem _ i).2 hid
  obtain ⟨r, hr, hri⟩ := List.mem_map.1 this
  exact ⟨r, hr, hri⟩

/-- C7, witness for `c7_empty_needle_matches_all` on the concrete table
`c3Table` (no empty titles). -/
theorem c7_empty_needle_matches_all_witness :
    ∃ r ∈ lookUpTable IdentifierServer false c3Table "" false,
      r.Identifier = "id-2" :=
  c7_empty_needle_matches_all IdentifierServer false c3Table (by decide)
    "id-2" ⟨"r", "a", "o", "web2"⟩ (by decide)

/-- C8, counterexample: the claim says a per-kind lookup with
`acceptUUID = true` and a valid-UUID needle not present in the table always
returns a result set containing the synthetic candidate; on `c8Store`,
whose only record is *titled* with the needle (under a different
identifier), the exact-match short-circuit suppresses the synthetic
candidate. -/
theorem c8_accept_uuid_cex :
    ¬ ∃ r ∈ c8Store.LookUpServers c8Uuid true, r.Identifier = c8Uuid := by
  decide

/-- C8, amended: for a per-kind lookup with `acceptUUID = true` and a
syntactically valid UUID needle whose identifier is absent from the table,
the synthetic candidate (Identifier = Name = needle) is in the result set
provided the exact-match short-circuit does not fire (i.e. the number of
records titled exactly the needle is not one); when nothing in the table
matches at all, the result is exactly the one-element set holding the
synthetic candidate. -/
theorem c8_accept_uuid_synthetic (kind : Nat) (strip : Bool) (tbl : Table)
    (needle : String) (hu : isUUID needle = true)
    (habs : needle ∉ tbl.map Prod.fst) :
    (tbl.countP (fun e => e.2.title == needle) ≠ 1 →
      synthEntry kind needle ∈ lookUpTable kind strip tbl needle true) ∧
    (generalMatchesOf kind tbl needle = [] →
      tbl.countP (fun e => e.2.title == needle) = 0 →
      lookUpTable kind strip tbl needle true = [synthEntry kind needle]) := by
  have hn : needle = if strip then stripUser needle else needle := by
    cases strip
    · rfl
    · exact (stripUser_of_isUUID needle hu).symm
  have hcond : ((true && isUUID needle) = true) = True := by
    simp [hu]
  have hgenid : ∀ e' ∈ generalMatchesOf kind tbl needle,
      e'.Identifier ≠ (synthEntry kind needle).Identifier := by
    intro e' he'
    obtain ⟨i, f, hmem, _, rfl⟩ := mem_generalMatchesOf.1 he'
    intro heq
    exact habs (List.mem_map.2 ⟨(i, f), hmem, heq⟩)
  constructor
  · intro h1
    rw [lookUpTable_of_length_ne_one kind strip tbl needle true needle hn h1]
    simp only [hcond, if_true, List.singleton_append]
    exact removeDuplicatesResults_head_mem _ _ hgenid
  · intro hgen h0
    rw [lookUpTable_of_length_ne_one kind strip tbl needle true needle hn
      (by omega)]
    simp only [hcond, if_true, hgen, List.singleton_append]
    rfl

/-- C8, witness for `c8_accept_uuid_synthetic` on the empty table, where
the lookup returns exactly the synthetic one-element result set. -/
theorem c8_accept_uuid_synthetic_witness :
    synthEntry IdentifierServer c8Uuid ∈
      lookUpTable IdentifierServer false [] c8Uuid true ∧
    lookUpTable IdentifierServer false [] c8Uuid true =
      [synthEntry IdentifierServer c8Uuid] :=
  ⟨(c8_accept_uuid_synthetic IdentifierServer false [] c8Uuid (by decide)
      (by decide)).1 (by decide),
    (c8_accept_uuid_synthetic IdentifierServer false [] c8Uuid (by decide)
      (by decide)).2 rfl (by decide)⟩

/-- C10: loading a path whose file exists but does not decode succeeds and
yields an empty usable store with all five mappings initialized and the
dirty flag false, but with `Path` reset to the empty string (the recovery
branch zeroes the whole struct), so a subsequent `Flush` deletes the file
at `""` instead of the cache file. -/
theorem c10_corrupt_load_loses_path (path : String) (fs : Fs)
    (h : assocLookup fs path = some FileContent.invalid) :
    ∃ c' fs', NewScalewayCache path fs = .ok (c', fs') ∧
      c'.Images = [] ∧ c'.Snapshots = [] ∧ c'.Volumes = [] ∧
      c'.Bootscripts = [] ∧ c'.Servers = [] ∧ c'.Modified = false ∧
      c'.Path = "" ∧ (∀ fs₂, c'.Flush fs₂ = assocErase fs₂ "") := by
  unfold NewScalewayCache
  rw [h]
  exact ⟨_, _, rfl, rfl, rfl, rfl, rfl, rfl, rfl, rfl, fun _ => rfl⟩

/-- C10, witness for `c10_corrupt_load_loses_path` at the concrete
filesystem `c10Fs`. -/
theorem c10_corrupt_load_loses_path_witness :
    ∃ c' fs',
      NewScalewayCache "/home/u/.scw-cache.db" c10Fs = .ok (c', fs') ∧
      c'.Images = [] ∧ c'.Snapshots = [] ∧ c'.Volumes = [] ∧
      c'.Bootscripts = [] ∧ c'.Servers = [] ∧ c'.Modified = false ∧
      c'.Path = "" ∧ (∀ fs₂, c'.Flush fs₂ = assocErase fs₂ "") :=
  c10_corrupt_load_loses_path "/home/u/.scw-cache.db" c10Fs rfl

end Scaleway

section ScalewaySanity
open Scaleway
example : stripUser "user/abc" = "abc" := by decide
example : stripUser "" = "" := by decide
example : stripUser "abc" = "abc" := by decide
example : splitOnChar ':' "server:web".data = ["server".data, "web".data] := by decide
example : splitOnChar ':' "a:b:c".data = ["a".data, "b".data, "c".data] := by decide
example : splitOnChar ':' "".data = [[]] := by decide
example : isPrefixList "".data "xyz".data = true := by decide
example : lev "web".data "web".data = 0 := by decide
example : lev "web".data "webby".data = 2 := by decide
example : patternMatch "my-server" "my_cool_server" = true := by decide
example : patternMatch "" "anything" = true := by decide
example : patternMatch "user/x" "x" = false := by decide
example : isUUID "00112233-aabb-ccdd-eeff-001122334455" = true := by decide
example : isUUID "not-a-uuid" = false := by decide
example : parseNeedle "server:web" = (IdentifierServer, "web") := by decide
example : parseNeedle "blah-blah" = (IdentifierUnknown, "blah-blah") := by decide
example : parseNeedle "foo:bar" = (IdentifierUnknown, "foo:bar") := by decide
example : parseNeedle "server:a:b" = (IdentifierUnknown, "server:a:b") := by decide
end ScalewaySanity
